import Mathlib

/-!
Verification of the Teebay product transaction engine.

The definitions below are a shallow embedding of the server resolvers
(src/server/src/resolvers/mutations.ts, the query resolvers, and the
persisted schema in prisma/migrations/20260120125343_init/migration.sql).
Mutation resolvers become functions from an explicit database state to
`Except Err DB`; a thrown error is `Except.error`, and since every write in
the source happens after all validation throws (buyProduct wraps its body in
a store transaction that rolls back on error), an error result leaves the
state unchanged by construction.  Timestamps are integers, prices are
integers (only JavaScript truthiness and equality of prices matter to the
resolvers, never float arithmetic), and JavaScript truthiness of a nullable
number is `truthyNum`.
-/

namespace Teebay

/-- Category enum from migration.sql. -/
inductive Category
  | ELECTRONICS
  | FURNITURE
  | HOME_APPLIANCES
  | SPORTING_GOODS
  | OUTDOOR
  | TOYS
deriving DecidableEq, Repr

/-- RentType enum from migration.sql. -/
inductive RentType
  | PER_HOUR
  | PER_DAY
deriving DecidableEq, Repr

/-- TransactionType enum from migration.sql. -/
inductive TransactionType
  | BUY
  | RENT
deriving DecidableEq, Repr

/-- A row of the Product table (migration.sql). -/
structure Product where
  id : Nat
  title : String
  description : String
  price : Option Int
  rentPrice : Option Int
  rentType : Option RentType
  categories : List Category
  views : Nat
  datePosted : Int
  isSold : Bool
  ownerId : Nat
deriving DecidableEq, Repr

/-- A row of the Transaction table (migration.sql plus the
transactionPrice / transactionRentPrice / transactionRentType snapshot
columns written by buyProduct and rentProduct). -/
structure Transaction where
  id : Nat
  type : TransactionType
  createdAt : Int
  startDate : Option Int
  endDate : Option Int
  userId : Nat
  productId : Nat
  transactionPrice : Option Int
  transactionRentPrice : Option Int
  transactionRentType : Option RentType
deriving DecidableEq, Repr

/-- The persistent store: the Product and Transaction tables plus the serial
id counters. -/
structure DB where
  products : List Product
  transactions : List Transaction
  nextProductId : Nat
  nextTransactionId : Nat
deriving DecidableEq, Repr

/-- Error kinds of utils/errors plus `Store` for an error raised by the
persistent store itself (a foreign key violation surfaced by Prisma, which
no resolver catches). -/
inductive ErrKind
  | Authentication
  | Authorization
  | Validation
  | NotFound
  | Conflict
  | Store
deriving DecidableEq, Repr

/-- An error: its kind and its human readable message. -/
structure Err where
  kind : ErrKind
  msg : String
deriving DecidableEq, Repr

/-- JavaScript truthiness of a nullable number: null, undefined and 0 are
falsy, every other number is truthy. -/
def truthyNum : Option Int → Bool
  | none => false
  | some x => x != 0

/-- prisma.product.findUnique on the id column. -/
def findProduct (db : DB) (pid : Nat) : Option Product :=
  db.products.find? (fun p => p.id == pid)

/-- The ownerId of the product a transaction references, when that product
exists. -/
def productOwner (db : DB) (pid : Nat) : Option Nat :=
  (findProduct db pid).map (fun p => p.ownerId)

/-- CreateProductInput (types.ts); an absent and a null price both reach the
database as null, so one Option level suffices. -/
structure CreateProductInput where
  title : String
  description : String
  categories : List Category
  price : Option Int
  rentPrice : Option Int
  rentType : Option RentType
deriving DecidableEq, Repr

/-- UpdateProductInput (types.ts and typeDefs.ts).  The outer Option is
field presence (undefined in the wire input); for the nullable columns the
inner Option is an explicit null. -/
structure UpdateProductInput where
  title : Option String
  description : Option String
  categories : Option (List Category)
  price : Option (Option Int)
  rentPrice : Option (Option Int)
  rentType : Option (Option RentType)
  isSold : Option Bool
deriving DecidableEq, Repr

/-- RentInput (types.ts): startDate and endDate arrive as strings and go
through new Date; a field holds the parsed timestamp, none standing for an
unparseable string (NaN). -/
structure RentInput where
  productId : Nat
  startDate : Option Int
  endDate : Option Int
deriving DecidableEq, Repr

/-- createProduct (mutations.ts): pricing checks, then insert with the
caller as owner.  The authentication step is outside the engine (the caller
id has already been resolved). -/
def createProduct (userId : Nat) (input : CreateProductInput) (now : Int)
    (db : DB) : Except Err (DB × Product) :=
  if !truthyNum input.price && !truthyNum input.rentPrice then
    .error ⟨.Validation, "Product must have either a purchase price or rental price"⟩
  else if truthyNum input.rentPrice && input.rentType.isNone then
    .error ⟨.Validation, "Rental type is required when rental price is set"⟩
  else
    let p : Product :=
      { id := db.nextProductId
        title := input.title
        description := input.description
        price := input.price
        rentPrice := input.rentPrice
        rentType := input.rentType
        categories := input.categories
        views := 0
        datePosted := now
        isSold := false
        ownerId := userId }
    .ok ({ db with
            products := db.products ++ [p]
            nextProductId := db.nextProductId + 1 }, p)

/-- The merged product an update writes: provided fields replace, absent
fields keep the stored value (mutations.ts data object). -/
def mergeProduct (p : Product) (input : UpdateProductInput) : Product :=
  { p with
    title := input.title.getD p.title
    description := input.description.getD p.description
    categories := input.categories.getD p.categories
    price := input.price.getD p.price
    rentPrice := input.rentPrice.getD p.rentPrice
    rentType := input.rentType.getD p.rentType
    isSold := input.isSold.getD p.isSold }

/-- prisma.product.update on the id column: every row with the target id is
replaced by the new row. -/
def replaceProduct (l : List Product) (pid : Nat) (newP : Product) :
    List Product :=
  l.map (fun q => if q.id == pid then newP else q)

/-- updateProduct (mutations.ts): lookup, ownership check, pricing checks on
the merged field set, then the single write. -/
def updateProduct (userId pid : Nat) (input : UpdateProductInput) (db : DB) :
    Except Err (DB × Product) :=
  match findProduct db pid with
  | none => .error ⟨.NotFound, "Product"⟩
  | some product =>
    if product.ownerId ≠ userId then
      .error ⟨.Authorization, "You can only update your own products"⟩
    else
      let finalPrice := input.price.getD product.price
      let finalRentPrice := input.rentPrice.getD product.rentPrice
      let finalRentType := input.rentType.getD product.rentType
      if !truthyNum finalPrice && !truthyNum finalRentPrice then
        .error ⟨.Validation, "Product must have either a purchase price or rental price"⟩
      else if truthyNum finalRentPrice && finalRentType.isNone then
        .error ⟨.Validation, "Rental type is required when rental price is set"⟩
      else
        let updated := mergeProduct product input
        .ok ({ db with products := replaceProduct db.products pid updated },
             updated)

/-- deleteProduct (mutations.ts) against the persisted schema: lookup and
ownership check as in the source; the final prisma.product.delete runs
against Transaction_productId_fkey, which migration.sql declares
ON DELETE RESTRICT, so the store rejects the delete whenever a Transaction
row still references the product. -/
def deleteProduct (userId pid : Nat) (db : DB) : Except Err DB :=
  match findProduct db pid with
  | none => .error ⟨.NotFound, "Product"⟩
  | some product =>
    if product.ownerId ≠ userId then
      .error ⟨.Authorization, "You can only delete your own products"⟩
    else if db.transactions.any (fun t => t.productId == pid) then
      .error ⟨.Store, "Foreign key constraint violated: Transaction_productId_fkey"⟩
    else
      .ok { db with products := db.products.filter (fun q => q.id != pid) }

/-- The findMany filter buyProduct uses for sale blocking rentals: same
product, type RENT, endDate at or after now (a null endDate matches no
comparison). -/
def rentalBlocksSale (now : Int) (pid : Nat) (t : Transaction) : Bool :=
  t.productId == pid && t.type == TransactionType.RENT &&
    (match t.endDate with
     | some e => now ≤ e
     | none => false)

/-- buyProduct (mutations.ts): the body of the store transaction, run
atomically; an error rolls the whole operation back. -/
def buyProduct (userId pid : Nat) (now : Int) (db : DB) : Except Err DB :=
  match findProduct db pid with
  | none => .error ⟨.NotFound, "Product"⟩
  | some product =>
    if product.isSold then
      .error ⟨.Conflict, "Product is already sold"⟩
    else if product.ownerId == userId then
      .error ⟨.Conflict, "Cannot buy your own product"⟩
    else if !truthyNum product.price then
      .error ⟨.Validation, "Product does not have a purchase price set"⟩
    else if (db.transactions.filter (rentalBlocksSale now pid)).length > 0 then
      .error ⟨.Conflict, "Cannot buy product while it is currently rented. Please try again after the rental period ends."⟩
    else
      let t : Transaction :=
        { id := db.nextTransactionId
          type := .BUY
          createdAt := now
          startDate := none
          endDate := none
          userId := userId
          productId := pid
          transactionPrice := if truthyNum product.price then product.price else none
          transactionRentPrice := none
          transactionRentType := none }
      .ok { db with
            products := replaceProduct db.products pid { product with isSold := true }
            transactions := db.transactions ++ [t]
            nextTransactionId := db.nextTransactionId + 1 }

/-- The three branch OR of the rental conflict findMany in rentProduct, on
an existing rental [s, e] against the proposed [sNew, eNew]: the existing
rental covers the new start, covers the new end, or lies inside the new
range. -/
def overlapBranches (s e sNew eNew : Int) : Bool :=
  (decide (s ≤ sNew) && decide (e ≥ sNew)) ||
  (decide (s ≤ eNew) && decide (e ≥ eNew)) ||
  (decide (s ≥ sNew) && decide (e ≤ eNew))

/-- Modelled from the spec: the single symmetric closed interval
intersection test of section 4.3, two closed intervals [sNew, eNew] and
[s, e] intersect iff sNew ≤ e and eNew ≥ s. -/
def specIntervalIntersect (sNew eNew s e : Int) : Bool :=
  decide (sNew ≤ e) && decide (eNew ≥ s)

/-- One conflicting rental row of the rentProduct findMany: same product,
type RENT, and one of the three overlap branches; a row with a null
startDate or endDate matches none of the branches. -/
def conflictsWithRange (pid : Nat) (sNew eNew : Int) (t : Transaction) :
    Bool :=
  t.productId == pid && t.type == TransactionType.RENT &&
    (match t.startDate, t.endDate with
     | some s, some e => overlapBranches s e sNew eNew
     | _, _ => false)

/-- rentProduct (mutations.ts): lookup, sold and self rental conflicts,
rental configuration check, date validation, overlap check, then the single
append. -/
def rentProduct (userId : Nat) (input : RentInput) (now : Int) (db : DB) :
    Except Err DB :=
  match findProduct db input.productId with
  | none => .error ⟨.NotFound, "Product"⟩
  | some product =>
    if product.isSold then
      .error ⟨.Conflict, "Cannot rent a product that is already sold"⟩
    else if product.ownerId == userId then
      .error ⟨.Conflict, "Cannot rent your own product"⟩
    else if !truthyNum product.rentPrice || product.rentType.isNone then
      .error ⟨.Validation, "Product does not have rental options configured"⟩
    else
      match input.startDate, input.endDate with
      | none, _ => .error ⟨.Validation, "Invalid date format"⟩
      | some _, none => .error ⟨.Validation, "Invalid date format"⟩
      | some s, some e =>
        if e ≤ s then
          .error ⟨.Validation, "End date must be after start date"⟩
        else if s < now then
          .error ⟨.Validation, "Start date cannot be in the past"⟩
        else if (db.transactions.filter
            (conflictsWithRange input.productId s e)).length > 0 then
          .error ⟨.Conflict, "Product is already rented during this period. Please choose a different date range."⟩
        else
          let t : Transaction :=
            { id := db.nextTransactionId
              type := .RENT
              createdAt := now
              startDate := some s
              endDate := some e
              userId := userId
              productId := input.productId
              transactionPrice := none
              transactionRentPrice :=
                if truthyNum product.rentPrice then product.rentPrice else none
              transactionRentType := product.rentType }
          .ok { db with
                transactions := db.transactions ++ [t]
                nextTransactionId := db.nextTransactionId + 1 }

/-- The product query (queries.ts): fetch, and increment views unless the
viewer is the owner. -/
def viewProduct (viewerId : Option Nat) (pid : Nat) (db : DB) :
    Except Err (DB × Product) :=
  match findProduct db pid with
  | none => .error ⟨.NotFound, "Product"⟩
  | some product =>
    if (match viewerId with
        | some uid => product.ownerId == uid
        | none => false) then
      .ok (db, product)
    else
      let bumped := { product with views := product.views + 1 }
      .ok ({ db with products := replaceProduct db.products pid bumped },
           bumped)

/-- The where clause of myTransactionHistory (queries.ts) for one filter
string; an unrecognized filter matches nothing, so the query returns the
empty list exactly as the source does. -/
def historyMatches (db : DB) (userId : Nat) (filter : String)
    (t : Transaction) : Bool :=
  if filter = "BOUGHT" then
    t.userId == userId && t.type == TransactionType.BUY
  else if filter = "SOLD" then
    productOwner db t.productId == some userId &&
      t.type == TransactionType.BUY
  else if filter = "BORROWED" then
    t.userId == userId && t.type == TransactionType.RENT
  else if filter = "LENT" then
    productOwner db t.productId == some userId &&
      t.type == TransactionType.RENT
  else
    false

/-- Newest first: the orderBy createdAt desc relation. -/
def newerEq (a b : Transaction) : Prop :=
  b.createdAt ≤ a.createdAt

instance : DecidableRel newerEq :=
  fun a b => inferInstanceAs (Decidable (b.createdAt ≤ a.createdAt))

instance : IsTotal Transaction newerEq :=
  ⟨fun a b => le_total b.createdAt a.createdAt⟩

instance : IsTrans Transaction newerEq :=
  ⟨fun _ _ _ h1 h2 => le_trans h2 h1⟩

/-- orderBy createdAt desc. -/
def newestFirst (l : List Transaction) : List Transaction :=
  l.insertionSort newerEq

/-- myTransactionHistory (queries.ts): filter the ledger by the viewpoint
predicate and order newest first. -/
def myTransactionHistory (db : DB) (userId : Nat) (filter : String) :
    List Transaction :=
  newestFirst (db.transactions.filter (historyMatches db userId filter))

/-- One engine operation that can write to the store; the pure read queries
take no step. -/
inductive Op
  | create (userId : Nat) (input : CreateProductInput) (now : Int)
  | update (userId pid : Nat) (input : UpdateProductInput)
  | del (userId pid : Nat)
  | buy (userId pid : Nat) (now : Int)
  | rent (userId : Nat) (input : RentInput) (now : Int)
  | view (viewerId : Option Nat) (pid : Nat)

/-- The state transition of one operation, forgetting the returned value. -/
def applyOp (op : Op) (db : DB) : Except Err DB :=
  match op with
  | .create u i n => (createProduct u i n db).map Prod.fst
  | .update u pid i => (updateProduct u pid i db).map Prod.fst
  | .del u pid => deleteProduct u pid db
  | .buy u pid n => buyProduct u pid n db
  | .rent u i n => rentProduct u i n db
  | .view v pid => (viewProduct v pid db).map Prod.fst

/-- The empty store the migration creates. -/
def initDB : DB :=
  { products := [], transactions := [], nextProductId := 1,
    nextTransactionId := 1 }

/-- States reachable from the empty store through successful engine
operations (a failed operation rolls back and takes no step). -/
inductive Reachable : DB → Prop
  | init : Reachable initDB
  | step {db db' : DB} (op : Op) :
      Reachable db → applyOp op db = .ok db' → Reachable db'

/-- Referential integrity of the ledger: every transaction references an
existing product (the RESTRICT foreign key keeps this true). -/
def FkOk (db : DB) : Prop :=
  ∀ t ∈ db.transactions, ∃ p, findProduct db t.productId = some p

/-- No transaction in the ledger was made by the owner of its product. -/
def NoSelfDeal (db : DB) : Prop :=
  ∀ t ∈ db.transactions, ∀ p, findProduct db t.productId = some p →
    p.ownerId ≠ t.userId

/-- An operation that does not explicitly pass isSold = false to an update
(the one input field that can clear the sold flag). -/
def opKeepsSoldFlag : Op → Prop
  | .update _ _ i => i.isSold ≠ some false
  | _ => True

/-- Run a sequence of buy attempts (buyer, time) on one product; a failed
attempt rolls back and leaves the state unchanged; returns the final state
and the number of attempts that succeeded. -/
def buyAttemptsFold (pid : Nat) (attempts : List (Nat × Int)) (db : DB) :
    DB × Nat :=
  match attempts with
  | [] => (db, 0)
  | (u, now) :: rest =>
    match buyProduct u pid now db with
    | .ok db' =>
      let r := buyAttemptsFold pid rest db'
      (r.1, r.2 + 1)
    | .error _ => buyAttemptsFold pid rest db

/-- Placeholder product used only as the default of Option.getD on lookups
that concrete evaluation shows to be some. -/
def dummyProduct : Product :=
  { id := 0, title := "", description := "", price := none, rentPrice := none,
    rentType := none, categories := [], views := 0, datePosted := 0,
    isSold := false, ownerId := 0 }

/-- Concrete input: a product for sale at price 50. -/
def exCreateInput : CreateProductInput :=
  { title := "Bike", description := "A bike", categories := [Category.OUTDOOR],
    price := some 50, rentPrice := none, rentType := none }

/-- State after user 1 lists the bike. -/
def exDb1 : DB :=
  match createProduct 1 exCreateInput 10 initDB with
  | .ok (d, _) => d
  | .error _ => initDB

/-- State after user 2 buys the bike: product 1 is sold, the ledger holds
one BUY transaction with price snapshot 50. -/
def exDb2 : DB :=
  match buyProduct 2 1 20 exDb1 with
  | .ok d => d
  | .error _ => exDb1

/-- The bike as stored in exDb1 (unsold). -/
def exP1 : Product := (findProduct exDb1 1).getD dummyProduct

/-- The bike as stored in exDb2 (sold). -/
def exP2 : Product := (findProduct exDb2 1).getD dummyProduct

/-- An update input whose only provided field is isSold = false. -/
def exRevertInput : UpdateProductInput :=
  { title := none, description := none, categories := none, price := none,
    rentPrice := none, rentType := none, isSold := some false }

/-- State after the owner updates the sold bike with isSold = false. -/
def exDb3 : DB :=
  match updateProduct 1 1 exRevertInput exDb2 with
  | .ok (d, _) => d
  | .error _ => exDb2

/-- State after a guest views product 1 of exDb2. -/
def exDbV : DB :=
  match viewProduct none 1 exDb2 with
  | .ok (d, _) => d
  | .error _ => exDb2

/-- Product 1 of exDbV. -/
def exPV : Product := (findProduct exDbV 1).getD dummyProduct

/-- A product configured for both sale and rental. -/
def exRentableProduct : Product :=
  { id := 1, title := "Canoe", description := "A canoe", price := some 80,
    rentPrice := some 10, rentType := some RentType.PER_DAY,
    categories := [Category.OUTDOOR], views := 0, datePosted := 0,
    isSold := false, ownerId := 1 }

/-- A rental of product 1 over [100, 200]. -/
def exRentTxn : Transaction :=
  { id := 1, type := .RENT, createdAt := 5, startDate := some 100,
    endDate := some 200, userId := 2, productId := 1,
    transactionPrice := none, transactionRentPrice := some 10,
    transactionRentType := some RentType.PER_DAY }

/-- Store holding the canoe and its rental over [100, 200]. -/
def exRentDb : DB :=
  { products := [exRentableProduct], transactions := [exRentTxn],
    nextProductId := 2, nextTransactionId := 2 }

/-- Store holding a rental-only product (no purchase price) and an active
rental of it. -/
def exRentalOnlyDb : DB :=
  { products := [{ exRentableProduct with price := none }],
    transactions := [exRentTxn], nextProductId := 2, nextTransactionId := 2 }

/-- A store holding a single already-sold product whose purchase price is
exactly 0 (and a configured rental price), owned by user 1. -/
def cexZeroDb : DB :=
  { products := [{ id := 1, title := "Freebie", description := "Zero priced",
                   price := some 0, rentPrice := some 10,
                   rentType := some RentType.PER_DAY,
                   categories := [Category.TOYS], views := 0, datePosted := 0,
                   isSold := true, ownerId := 1 }],
    transactions := [], nextProductId := 2, nextTransactionId := 1 }

/-- An update input that sets price to 0 and clears rentPrice. -/
def cexZeroInput : UpdateProductInput :=
  { title := none, description := none, categories := none,
    price := some (some 0), rentPrice := some none, rentType := none,
    isSold := none }

/-- A rent request by which an owner would rent their own product 1. -/
def exSelfRentInput : RentInput :=
  { productId := 1, startDate := some 100, endDate := some 200 }

/-- An update input that explicitly clears both prices. -/
def cexClearInput : UpdateProductInput :=
  { title := none, description := none, categories := none,
    price := some none, rentPrice := some none, rentType := none,
    isSold := none }

/-- An update input that sets a rental price without a rental type. -/
def cexI2Input : UpdateProductInput :=
  { title := none, description := none, categories := none, price := none,
    rentPrice := some (some 5), rentType := none, isSold := none }

/-- A store holding an unsold product with purchase price exactly 0 and a
configured rental option, owned by user 1. -/
def exZeroUnsoldDb : DB :=
  { products := [{ id := 1, title := "Freebie", description := "Zero priced",
                   price := some 0, rentPrice := some 10,
                   rentType := some RentType.PER_DAY,
                   categories := [Category.TOYS], views := 0, datePosted := 0,
                   isSold := false, ownerId := 1 }],
    transactions := [], nextProductId := 2, nextTransactionId := 1 }

/-- A create input with price 0 and no rental price. -/
def cexZeroCreateInput : CreateProductInput :=
  { title := "Freebie", description := "Zero priced",
    categories := [Category.TOYS], price := some 0, rentPrice := none,
    rentType := none }

/-- The kind of the error a result carries, if any. -/
def errKind {α : Type} : Except Err α → Option ErrKind
  | .error e => some e.kind
  | .ok _ => none

/-! ### Lookup lemmas -/

theorem findProduct_id {db : DB} {pid : Nat} {p : Product}
    (h : findProduct db pid = some p) : p.id = pid := by
  simp only [findProduct] at h
  have h2 := List.find?_some h
  simpa using h2

theorem findProduct_mem {db : DB} {pid : Nat} {p : Product}
    (h : findProduct db pid = some p) : p ∈ db.products :=
  List.mem_of_find?_eq_some h

theorem find?_isSome_of_mem {l : List Product} {p : Product} (hmem : p ∈ l) :
    ∃ q, l.find? (fun q => q.id == p.id) = some q := by
  have h : (l.find? (fun q => q.id == p.id)).isSome = true := by
    rw [List.find?_isSome]
    exact ⟨p, hmem, by simp⟩
  exact Option.isSome_iff_exists.mp h

theorem find?_replaceProduct (l : List Product) (pid : Nat) (newP : Product)
    (hid : newP.id = pid) (x : Nat) :
    (replaceProduct l pid newP).find? (fun q => q.id == x) =
      (l.find? (fun q => q.id == x)).map
        (fun q => if q.id == pid then newP else q) := by
  induction l with
  | nil => rfl
  | cons a t ih =>
    have hb : (if a.id == pid then newP else a).id = a.id := by
      by_cases h : a.id = pid
      · simp [h, hid]
      · simp [h]
    simp only [replaceProduct, List.map_cons]
    rw [List.find?_cons, List.find?_cons, hb]
    cases hax : (a.id == x)
    · simpa [replaceProduct] using ih
    · simp

theorem find?_filterOut (l : List Product) (pid x : Nat) (hne : x ≠ pid) :
    (l.filter (fun q => q.id != pid)).find? (fun q => q.id == x) =
      l.find? (fun q => q.id == x) := by
  induction l with
  | nil => rfl
  | cons a t ih =>
    by_cases hap : a.id = pid
    · have hax : (a.id == x) = false := by
        refine beq_eq_false_iff_ne.mpr ?_
        intro h
        exact hne (by omega)
      have hdrop : (a.id != pid) = false := by simp [hap]
      rw [List.filter_cons, hdrop, List.find?_cons, hax]
      simpa using ih
    · by_cases hax : a.id = x
      · simp [List.filter_cons, hap, List.find?_cons, hax, hne]
      · simp [List.filter_cons, hap, List.find?_cons, hax, ih]

theorem find?_filterOut_self (l : List Product) (pid : Nat) :
    (l.filter (fun q => q.id != pid)).find? (fun q => q.id == pid) = none := by
  rw [List.find?_eq_none]
  intro q hq
  have h := List.mem_filter.mp hq
  simp only [bne_iff_ne, ne_eq] at h
  simp [h.2]

theorem find?_append_left {l₁ l₂ : List Product} {p : Product → Bool}
    {a : Product} (h : l₁.find? p = some a) :
    (l₁ ++ l₂).find? p = some a := by
  simp [List.find?_append, h]

/-! ### Inversion of the mutations on success -/

theorem createProduct_ok {u : Nat} {i : CreateProductInput} {n : Int}
    {db db' : DB} {p : Product}
    (h : createProduct u i n db = .ok (db', p)) :
    p.id = db.nextProductId ∧ p.ownerId = u ∧ p.isSold = false ∧
      db'.products = db.products ++ [p] ∧
      db'.transactions = db.transactions := by
  unfold createProduct at h
  split_ifs at h with h1 h2
  simp only [Except.ok.injEq, Prod.mk.injEq] at h
  obtain ⟨hdb, hp⟩ := h
  subst hdb
  subst hp
  simp

theorem updateProduct_ok {u pid : Nat} {i : UpdateProductInput}
    {db db' : DB} {p' : Product}
    (h : updateProduct u pid i db = .ok (db', p')) :
    ∃ p, findProduct db pid = some p ∧ p.ownerId = u ∧
      p' = mergeProduct p i ∧
      db'.products = replaceProduct db.products pid (mergeProduct p i) ∧
      db'.transactions = db.transactions ∧
      db'.nextProductId = db.nextProductId ∧
      db'.nextTransactionId = db.nextTransactionId := by
  unfold updateProduct at h
  cases hf : findProduct db pid with
  | none => rw [hf] at h; simp at h
  | some p =>
    rw [hf] at h
    dsimp only at h
    split_ifs at h with h1 h2 h3
    simp only [Except.ok.injEq, Prod.mk.injEq] at h
    obtain ⟨hdb, hp⟩ := h
    subst hdb
    subst hp
    simp only [not_not] at h1
    exact ⟨p, rfl, h1, rfl, rfl, rfl, rfl, rfl⟩

theorem deleteProduct_ok {u pid : Nat} {db db' : DB}
    (h : deleteProduct u pid db = .ok db') :
    ∃ p, findProduct db pid = some p ∧ p.ownerId = u ∧
      (∀ t ∈ db.transactions, t.productId ≠ pid) ∧
      db'.products = db.products.filter (fun q => q.id != pid) ∧
      db'.transactions = db.transactions := by
  unfold deleteProduct at h
  cases hf : findProduct db pid with
  | none => rw [hf] at h; simp at h
  | some p =>
    rw [hf] at h
    dsimp only at h
    split_ifs at h with h1 h2
    simp only [Except.ok.injEq] at h
    subst h
    simp only [not_not] at h1
    refine ⟨p, rfl, h1, ?_, rfl, rfl⟩
    intro t ht hpid
    exact h2 (List.any_eq_true.mpr ⟨t, ht, by simp [hpid]⟩)

theorem buyProduct_ok {u pid : Nat} {now : Int} {db db' : DB}
    (h : buyProduct u pid now db = .ok db') :
    ∃ p, findProduct db pid = some p ∧ p.isSold = false ∧
      p.ownerId ≠ u ∧ truthyNum p.price = true ∧
      db.transactions.filter (rentalBlocksSale now pid) = [] ∧
      db'.products = replaceProduct db.products pid { p with isSold := true } ∧
      db'.transactions = db.transactions ++
        [{ id := db.nextTransactionId, type := .BUY, createdAt := now,
           startDate := none, endDate := none, userId := u, productId := pid,
           transactionPrice := p.price, transactionRentPrice := none,
           transactionRentType := none }] ∧
      db'.nextProductId = db.nextProductId := by
  unfold buyProduct at h
  cases hf : findProduct db pid with
  | none => rw [hf] at h; simp at h
  | some p =>
    rw [hf] at h
    dsimp only at h
    split_ifs at h with h1 h2 h3 h4 h5
    · simp only [Except.ok.injEq] at h
      subst h
      have hsold : p.isSold = false := by
        cases hs : p.isSold
        · rfl
        · exact absurd hs h1
      have hown : p.ownerId ≠ u := by
        intro hq
        exact h2 (by simp [hq])
      have hrent : db.transactions.filter (rentalBlocksSale now pid) = [] := by
        rcases hl : db.transactions.filter (rentalBlocksSale now pid)
          with _ | ⟨t, l⟩
        · rfl
        · exact absurd (by simp [hl]) h4
      exact ⟨p, rfl, hsold, hown, h5, hrent, rfl, rfl, rfl⟩
    · refine absurd ?_ h5
      cases ht : truthyNum p.price
      · exact absurd (by simp [ht]) h3
      · rfl

theorem rentProduct_ok {u : Nat} {i : RentInput} {now : Int} {db db' : DB}
    (h : rentProduct u i now db = .ok db') :
    ∃ p s e, findProduct db i.productId = some p ∧ p.isSold = false ∧
      p.ownerId ≠ u ∧ i.startDate = some s ∧ i.endDate = some e ∧
      s < e ∧ now ≤ s ∧
      db.transactions.filter (conflictsWithRange i.productId s e) = [] ∧
      db'.products = db.products ∧
      db'.transactions = db.transactions ++
        [{ id := db.nextTransactionId, type := .RENT, createdAt := now,
           startDate := some s, endDate := some e, userId := u,
           productId := i.productId, transactionPrice := none,
           transactionRentPrice := p.rentPrice,
           transactionRentType := p.rentType }] := by
  unfold rentProduct at h
  cases hf : findProduct db i.productId with
  | none => rw [hf] at h; simp at h
  | some p =>
    rw [hf] at h
    dsimp only at h
    split_ifs at h with h1 h2 h3 hsnap
    · cases hs : i.startDate with
      | none => rw [hs] at h; simp at h
      | some s =>
        cases he : i.endDate with
        | none => rw [hs, he] at h; simp at h
        | some e =>
          rw [hs, he] at h
          dsimp only at h
          split_ifs at h with h4 h5 h6
          simp only [Except.ok.injEq] at h
          subst h
          have hsold : p.isSold = false := by
            cases hq : p.isSold
            · rfl
            · exact absurd hq h1
          have hown : p.ownerId ≠ u := by
            intro hq
            exact h2 (by simp [hq])
          have hrent : db.transactions.filter
              (conflictsWithRange i.productId s e) = [] := by
            rcases hl : db.transactions.filter
                (conflictsWithRange i.productId s e) with _ | ⟨t, l⟩
            · rfl
            · exact absurd (by simp [hl]) h6
          exact ⟨p, s, e, rfl, hsold, hown, rfl, rfl, by omega, by omega,
            hrent, rfl, rfl⟩
    · refine absurd ?_ hsnap
      cases ht : truthyNum p.rentPrice
      · exact absurd (by simp [ht]) h3
      · rfl

theorem viewProduct_ok {v : Option Nat} {pid : Nat} {db db' : DB}
    {p' : Product} (h : viewProduct v pid db = .ok (db', p')) :
    db'.transactions = db.transactions ∧
      (db'.products = db.products ∨
        ∃ p, findProduct db pid = some p ∧
          db'.products =
            replaceProduct db.products pid { p with views := p.views + 1 }) := by
  unfold viewProduct at h
  cases hf : findProduct db pid with
  | none => rw [hf] at h; simp at h
  | some p =>
    rw [hf] at h
    dsimp only at h
    split_ifs at h with h1
    · simp only [Except.ok.injEq, Prod.mk.injEq] at h
      obtain ⟨hdb, hp2⟩ := h
      subst hdb
      exact ⟨rfl, Or.inl rfl⟩
    · simp only [Except.ok.injEq, Prod.mk.injEq] at h
      obtain ⟨hdb, hp2⟩ := h
      subst hdb
      exact ⟨rfl, Or.inr ⟨p, rfl, rfl⟩⟩

/-! ### Error paths of buyProduct and the buy sequence fold -/

theorem buyProduct_sold_err {db : DB} {pid u : Nat} {now : Int} {p : Product}
    (hp : findProduct db pid = some p) (hs : p.isSold = true) :
    buyProduct u pid now db = .error ⟨.Conflict, "Product is already sold"⟩ := by
  unfold buyProduct
  rw [hp]
  dsimp only
  rw [if_pos hs]

theorem buyAttemptsFold_sold {pid : Nat} {db : DB} {p : Product}
    (hp : findProduct db pid = some p) (hs : p.isSold = true)
    (attempts : List (Nat × Int)) :
    buyAttemptsFold pid attempts db = (db, 0) := by
  induction attempts with
  | nil => rfl
  | cons a rest ih =>
    obtain ⟨u, now⟩ := a
    unfold buyAttemptsFold
    rw [buyProduct_sold_err hp hs]
    exact ih

theorem buyProduct_ok_sold_after {u pid : Nat} {now : Int} {db db' : DB}
    (h : buyProduct u pid now db = .ok db') :
    ∃ p', findProduct db' pid = some p' ∧ p'.isSold = true := by
  obtain ⟨p, hp, _, _, _, _, hprod, _, _⟩ := buyProduct_ok h
  have hid : p.id = pid := findProduct_id hp
  refine ⟨{ p with isSold := true }, ?_, rfl⟩
  simp only [findProduct, hprod]
  rw [find?_replaceProduct _ _ _ (by simpa using hid) pid]
  simp only [findProduct] at hp
  rw [hp]
  simp [hid]

theorem buyAttemptsFold_le_one (pid : Nat) (attempts : List (Nat × Int))
    (db : DB) : (buyAttemptsFold pid attempts db).2 ≤ 1 := by
  induction attempts generalizing db with
  | nil => simp [buyAttemptsFold]
  | cons a rest ih =>
    obtain ⟨u, now⟩ := a
    unfold buyAttemptsFold
    cases hb : buyProduct u pid now db with
    | error e => exact ih db
    | ok db' =>
      dsimp only
      obtain ⟨p', hp', hs'⟩ := buyProduct_ok_sold_after hb
      rw [buyAttemptsFold_sold hp' hs' rest]

/-! ### Transfer of lookups across the writes -/

theorem find_after_replace {db : DB} {pid x : Nat} {newP p0 : Product}
    (hid : newP.id = pid) (hf : findProduct db x = some p0) :
    (replaceProduct db.products pid newP).find? (fun r => r.id == x) =
      some (if p0.id == pid then newP else p0) := by
  rw [find?_replaceProduct _ _ _ hid x]
  simp only [findProduct] at hf
  rw [hf]
  rfl

theorem owner_after_replace {db : DB} {pid x : Nat} {p newP q : Product}
    (hp : findProduct db pid = some p) (hid : newP.id = pid)
    (hown : newP.ownerId = p.ownerId)
    (hq : (replaceProduct db.products pid newP).find? (fun r => r.id == x) =
      some q) :
    ∃ p0, findProduct db x = some p0 ∧ q.ownerId = p0.ownerId := by
  rw [find?_replaceProduct _ _ _ hid x] at hq
  cases hf : findProduct db x with
  | none =>
    simp only [findProduct] at hf
    rw [hf] at hq
    simp at hq
  | some p0 =>
    refine ⟨p0, rfl, ?_⟩
    simp only [findProduct] at hf
    rw [hf] at hq
    have hq2 : some (if p0.id == pid then newP else p0) = some q := hq
    have hq3 := Option.some.inj hq2
    subst hq3
    by_cases hcase : p0.id = pid
    · have hx : p0.id = x := by
        have := @findProduct_id db x p0 (by
          simpa [findProduct] using hf)
        exact this
      have hxp : x = pid := by omega
      subst hxp
      have : p0 = p := by
        have hf2 : findProduct db x = some p0 := by
          simpa [findProduct] using hf
        rw [hf2] at hp
        exact (Option.some.injEq _ _).mp hp.symm |>.symm
      subst this
      simp [hcase, hown]
    · simp [hcase]

/-! ### The ledger invariants hold in every reachable state -/

theorem applyOp_ok_inv {op : Op} {db db' : DB}
    (hfk : FkOk db) (hns : NoSelfDeal db)
    (h : applyOp op db = .ok db') : FkOk db' ∧ NoSelfDeal db' := by
  cases op with
  | create u i n =>
    simp only [applyOp] at h
    cases hc : createProduct u i n db with
    | error e =>
      rw [hc] at h
      have h2 : (Except.error e : Except Err DB) = Except.ok db' := h
      simp at h2
    | ok pr =>
      obtain ⟨d2, p2⟩ := pr
      rw [hc] at h
      have hdb := Except.ok.inj (show Except.ok (d2, p2).1 = Except.ok db' from h)
      subst hdb
      obtain ⟨hpid, hpown, hpsold, hprod, htx⟩ := createProduct_ok hc
      constructor
      · intro t ht
        rw [htx] at ht
        obtain ⟨q, hq⟩ := hfk t ht
        refine ⟨q, ?_⟩
        simp only [findProduct, hprod]
        exact find?_append_left (by simpa [findProduct] using hq)
      · intro t ht q hq
        rw [htx] at ht
        obtain ⟨q0, hq0⟩ := hfk t ht
        have hq0' : (db.products ++ [p2]).find?
            (fun r => r.id == t.productId) = some q0 :=
          find?_append_left (by simpa [findProduct] using hq0)
        simp only [findProduct, hprod] at hq
        rw [hq0'] at hq
        have := Option.some.inj hq
        subst this
        exact hns t ht q0 hq0
  | update u pid i =>
    simp only [applyOp] at h
    cases hc : updateProduct u pid i db with
    | error e =>
      rw [hc] at h
      have h2 : (Except.error e : Except Err DB) = Except.ok db' := h
      simp at h2
    | ok pr =>
      obtain ⟨d2, p2⟩ := pr
      rw [hc] at h
      have hdb := Except.ok.inj (show Except.ok (d2, p2).1 = Except.ok db' from h)
      subst hdb
      obtain ⟨p, hp, hpown, hp2, hprod, htx, _, _⟩ := updateProduct_ok hc
      have hid : (mergeProduct p i).id = pid := by
        have := findProduct_id hp
        simpa [mergeProduct] using this
      have hmo : (mergeProduct p i).ownerId = p.ownerId := rfl
      constructor
      · intro t ht
        rw [htx] at ht
        obtain ⟨q, hq⟩ := hfk t ht
        refine ⟨if q.id == pid then mergeProduct p i else q, ?_⟩
        simp only [findProduct, hprod]
        exact find_after_replace hid hq
      · intro t ht q hq
        rw [htx] at ht
        simp only [findProduct, hprod] at hq
        obtain ⟨p0, hp0, hqe⟩ := owner_after_replace hp hid hmo hq
        rw [hqe]
        exact hns t ht p0 hp0
  | del u pid =>
    simp only [applyOp] at h
    obtain ⟨p, hp, hpown, hnone, hprod, htx⟩ := deleteProduct_ok h
    constructor
    · intro t ht
      rw [htx] at ht
      obtain ⟨q, hq⟩ := hfk t ht
      refine ⟨q, ?_⟩
      simp only [findProduct, hprod]
      rw [find?_filterOut _ _ _ (hnone t ht)]
      simpa [findProduct] using hq
    · intro t ht q hq
      rw [htx] at ht
      simp only [findProduct, hprod] at hq
      rw [find?_filterOut _ _ _ (hnone t ht)] at hq
      exact hns t ht q (by simpa [findProduct] using hq)
  | buy u pid n =>
    simp only [applyOp] at h
    obtain ⟨p, hp, hpsold, hpown, hprice, hfilter, hprod, htx, _⟩ :=
      buyProduct_ok h
    have hid0 : p.id = pid := findProduct_id hp
    have hid : ({ p with isSold := true } : Product).id = pid := hid0
    have hmo : ({ p with isSold := true } : Product).ownerId = p.ownerId := rfl
    constructor
    · intro t ht
      rw [htx] at ht
      rcases List.mem_append.mp ht with hold | hnew
      · obtain ⟨q, hq⟩ := hfk t hold
        refine ⟨if q.id == pid then ({ p with isSold := true } : Product)
          else q, ?_⟩
        simp only [findProduct, hprod]
        exact find_after_replace hid hq
      · have ht2 : t.productId = pid := by
          simp only [List.mem_singleton] at hnew
          subst hnew
          rfl
        rw [ht2]
        refine ⟨if p.id == pid then ({ p with isSold := true } : Product)
          else p, ?_⟩
        simp only [findProduct, hprod]
        exact find_after_replace hid hp
    · intro t ht q hq
      rw [htx] at ht
      simp only [findProduct, hprod] at hq
      obtain ⟨p0, hp0, hqe⟩ := owner_after_replace hp hid hmo hq
      rcases List.mem_append.mp ht with hold | hnew
      · rw [hqe]
        exact hns t hold p0 hp0
      · simp only [List.mem_singleton] at hnew
        subst hnew
        simp only at hp0 ⊢
        rw [hp0] at hp
        have := Option.some.inj hp
        subst this
        rw [hqe]
        exact hpown
  | rent u i n =>
    simp only [applyOp] at h
    obtain ⟨p, s, e, hp, hpsold, hpown, hs, he, hlt, hnow, hfilter, hprod,
      htx⟩ := rentProduct_ok h
    have hsame : ∀ x, findProduct db' x = findProduct db x := by
      intro x
      simp [findProduct, hprod]
    constructor
    · intro t ht
      rw [htx] at ht
      rcases List.mem_append.mp ht with hold | hnew
      · obtain ⟨q, hq⟩ := hfk t hold
        exact ⟨q, by rw [hsame]; exact hq⟩
      · simp only [List.mem_singleton] at hnew
        subst hnew
        exact ⟨p, by rw [hsame]; exact hp⟩
    · intro t ht q hq
      rw [htx] at ht
      rw [hsame] at hq
      rcases List.mem_append.mp ht with hold | hnew
      · exact hns t hold q hq
      · simp only [List.mem_singleton] at hnew
        subst hnew
        simp only at hq ⊢
        rw [hq] at hp
        have := Option.some.inj hp
        subst this
        exact hpown
  | view v pid =>
    simp only [applyOp] at h
    cases hc : viewProduct v pid db with
    | error e =>
      rw [hc] at h
      have h2 : (Except.error e : Except Err DB) = Except.ok db' := h
      simp at h2
    | ok pr =>
      obtain ⟨d2, p2⟩ := pr
      rw [hc] at h
      have hdb := Except.ok.inj (show Except.ok (d2, p2).1 = Except.ok db' from h)
      subst hdb
      obtain ⟨htx, hcases⟩ := viewProduct_ok hc
      rcases hcases with hsame | ⟨p, hp, hprod⟩
      · constructor
        · intro t ht
          rw [htx] at ht
          obtain ⟨q, hq⟩ := hfk t ht
          exact ⟨q, by simpa [findProduct, hsame] using hq⟩
        · intro t ht q hq
          rw [htx] at ht
          exact hns t ht q (by simpa [findProduct, hsame] using hq)
      · have hid0 : p.id = pid := findProduct_id hp
        have hid : ({ p with views := p.views + 1 } : Product).id = pid := hid0
        have hmo : ({ p with views := p.views + 1 } : Product).ownerId =
            p.ownerId := rfl
        constructor
        · intro t ht
          rw [htx] at ht
          obtain ⟨q, hq⟩ := hfk t ht
          refine ⟨if q.id == pid then ({ p with views := p.views + 1 } :
            Product) else q, ?_⟩
          simp only [findProduct, hprod]
          exact find_after_replace hid hq
        · intro t ht q hq
          rw [htx] at ht
          simp only [findProduct, hprod] at hq
          obtain ⟨p0, hp0, hqe⟩ := owner_after_replace hp hid hmo hq
          rw [hqe]
          exact hns t ht p0 hp0

theorem reachable_inv {db : DB} (h : Reachable db) :
    FkOk db ∧ NoSelfDeal db := by
  induction h with
  | init =>
    constructor
    · intro t ht
      simp [initDB] at ht
    · intro t ht
      simp [initDB] at ht
  | step op hdb hstep ih =>
    exact applyOp_ok_inv ih.1 ih.2 hstep

/-! ### History query support -/

theorem mem_newestFirst {t : Transaction} {l : List Transaction} :
    t ∈ newestFirst l ↔ t ∈ l :=
  (List.perm_insertionSort newerEq l).mem_iff

theorem sorted_newestFirst (l : List Transaction) :
    List.Sorted newerEq (newestFirst l) :=
  List.sorted_insertionSort newerEq l

theorem mem_history {db : DB} {u : Nat} {f : String} {t : Transaction} :
    t ∈ myTransactionHistory db u f ↔
      t ∈ db.transactions ∧ historyMatches db u f t = true := by
  unfold myTransactionHistory
  rw [mem_newestFirst, List.mem_filter]

theorem historyMatches_bought (db : DB) (u : Nat) (t : Transaction) :
    historyMatches db u "BOUGHT" t =
      (t.userId == u && t.type == TransactionType.BUY) := rfl

theorem historyMatches_sold (db : DB) (u : Nat) (t : Transaction) :
    historyMatches db u "SOLD" t =
      (productOwner db t.productId == some u &&
        t.type == TransactionType.BUY) := rfl

theorem historyMatches_borrowed (db : DB) (u : Nat) (t : Transaction) :
    historyMatches db u "BORROWED" t =
      (t.userId == u && t.type == TransactionType.RENT) := rfl

theorem historyMatches_lent (db : DB) (u : Nat) (t : Transaction) :
    historyMatches db u "LENT" t =
      (productOwner db t.productId == some u &&
        t.type == TransactionType.RENT) := rfl

/-- The two step scenario: user 1 lists the bike, user 2 buys it. -/
theorem exDb2_reachable : Reachable exDb2 :=
  Reachable.step (Op.buy 2 1 20)
    (Reachable.step (Op.create 1 exCreateInput 10) Reachable.init rfl) rfl

/-! ### The claims -/

/-- C1: for a product whose sold flag is true, buyProduct fails with
Conflict "Product is already sold", any sequence of buy attempts on it
leaves the store unchanged with zero successes (a failed attempt rolls the
store transaction back), and in any sequence of buy attempts on one product
from any starting state at most one attempt succeeds. -/
theorem buy_no_double_sale (db : DB) (pid buyer : Nat) (now : Int)
    (attempts : List (Nat × Int)) (p : Product)
    (hp : findProduct db pid = some p) (hsold : p.isSold = true) :
    buyProduct buyer pid now db =
        .error ⟨.Conflict, "Product is already sold"⟩ ∧
      buyAttemptsFold pid attempts db = (db, 0) ∧
      ∀ db0 att0, (buyAttemptsFold pid att0 db0).2 ≤ 1 :=
  ⟨buyProduct_sold_err hp hsold, buyAttemptsFold_sold hp hsold attempts,
    fun db0 att0 => buyAttemptsFold_le_one pid att0 db0⟩

/-- Witness for C1 at the concrete sold bike of exDb2. -/
theorem buy_no_double_sale_witness :
    findProduct exDb2 1 = some exP2 ∧ exP2.isSold = true ∧
      (buyProduct 3 1 30 exDb2 =
          .error ⟨.Conflict, "Product is already sold"⟩ ∧
        buyAttemptsFold 1 [(3, 30), (4, 40)] exDb2 = (exDb2, 0) ∧
        ∀ db0 att0, (buyAttemptsFold 1 att0 db0).2 ≤ 1) :=
  ⟨rfl, rfl, buy_no_double_sale exDb2 1 3 30 [(3, 30), (4, 40)] exP2 rfl rfl⟩

/-- C2 counterexample: exDb2 is reachable and its product 1 is sold, yet the
update operation (whose UpdateProductInput carries an isSold field) lets the
owner set isSold back to false, so the sold flag does revert to false under
a core operation. -/
theorem sold_flag_revert_cex :
    Reachable exDb2 ∧
      (findProduct exDb2 1).map Product.isSold = some true ∧
      applyOp (Op.update 1 1 exRevertInput) exDb2 = .ok exDb3 ∧
      (findProduct exDb3 1).map Product.isSold = some false :=
  ⟨exDb2_reachable, rfl, rfl, rfl⟩

/-- C2 amended: for every reachable state and every core operation that does
not explicitly pass isSold = false in an update input, a product whose sold
flag is true before the operation still has it true afterwards; the only
reverting operation is updateProduct with isSold = false, which typeDefs.ts
exposes to any caller. -/
theorem sold_flag_monotone (db db' : DB) (op : Op) (_hdb : Reachable db)
    (hop : opKeepsSoldFlag op) (hstep : applyOp op db = .ok db')
    (pid : Nat) (p p' : Product) (hp : findProduct db pid = some p)
    (hsold : p.isSold = true) (hp' : findProduct db' pid = some p') :
    p'.isSold = true := by
  cases op with
  | create u2 i2 n2 =>
    simp only [applyOp] at hstep
    cases hc : createProduct u2 i2 n2 db with
    | error e =>
      rw [hc] at hstep
      have h2 : (Except.error e : Except Err DB) = Except.ok db' := hstep
      simp at h2
    | ok pr =>
      obtain ⟨d2, p2⟩ := pr
      rw [hc] at hstep
      have hdb2 := Except.ok.inj
        (show Except.ok (d2, p2).1 = Except.ok db' from hstep)
      subst hdb2
      obtain ⟨_, _, _, hprod, _⟩ := createProduct_ok hc
      simp only [findProduct, hprod] at hp'
      rw [find?_append_left (by simpa [findProduct] using hp)] at hp'
      have := Option.some.inj hp'
      subst this
      exact hsold
  | update u2 pid2 i2 =>
    simp only [applyOp] at hstep
    cases hc : updateProduct u2 pid2 i2 db with
    | error e =>
      rw [hc] at hstep
      have h2 : (Except.error e : Except Err DB) = Except.ok db' := hstep
      simp at h2
    | ok pr =>
      obtain ⟨d2, p2⟩ := pr
      rw [hc] at hstep
      have hdb2 := Except.ok.inj
        (show Except.ok (d2, p2).1 = Except.ok db' from hstep)
      subst hdb2
      obtain ⟨q, hq, hqown, hqe, hprod, _, _, _⟩ := updateProduct_ok hc
      have hqid : q.id = pid2 := findProduct_id hq
      have hid : (mergeProduct q i2).id = pid2 := by
        simpa [mergeProduct] using hqid
      simp only [findProduct, hprod] at hp'
      rw [find?_replaceProduct _ _ _ hid pid] at hp'
      simp only [findProduct] at hp
      rw [hp] at hp'
      have hp2 : some (if p.id == pid2 then mergeProduct q i2 else p) =
          some p' := hp'
      have hp3 := Option.some.inj hp2
      by_cases hcase : p.id = pid2
      · have hpidx : p.id = pid := @findProduct_id db pid p (by
          simpa [findProduct] using hp)
        have hxp : pid = pid2 := by omega
        subst hxp
        have hqp : q = p := by
          have hp4 : findProduct db pid = some p := by
            simpa [findProduct] using hp
          rw [hp4] at hq
          exact (Option.some.inj hq).symm
        subst hqp
        rw [← hp3]
        simp only [hcase, beq_self_eq_true, if_true]
        simp only [mergeProduct]
        simp only [opKeepsSoldFlag] at hop
        cases his : i2.isSold with
        | none => simpa [his] using hsold
        | some b =>
          cases b
          · exact absurd his hop
          · simp [his]
      · rw [← hp3]
        simp [hcase, hsold]
  | del u2 pid2 =>
    simp only [applyOp] at hstep
    obtain ⟨q, hq, hqown, hnone, hprod, _⟩ := deleteProduct_ok hstep
    simp only [findProduct, hprod] at hp'
    by_cases hcase : pid = pid2
    · subst hcase
      rw [find?_filterOut_self] at hp'
      simp at hp'
    · rw [find?_filterOut _ _ _ hcase] at hp'
      simp only [findProduct] at hp
      rw [hp] at hp'
      have := Option.some.inj hp'
      subst this
      exact hsold
  | buy u2 pid2 n2 =>
    simp only [applyOp] at hstep
    obtain ⟨q, hq, _, _, _, _, hprod, _, _⟩ := buyProduct_ok hstep
    have hqid : q.id = pid2 := findProduct_id hq
    have hid : ({ q with isSold := true } : Product).id = pid2 := hqid
    simp only [findProduct, hprod] at hp'
    rw [find?_replaceProduct _ _ _ hid pid] at hp'
    simp only [findProduct] at hp
    rw [hp] at hp'
    have hp2 : some (if p.id == pid2 then ({ q with isSold := true } : Product)
        else p) = some p' := hp'
    have hp3 := Option.some.inj hp2
    by_cases hcase : p.id = pid2
    · rw [← hp3]
      simp [hcase]
    · rw [← hp3]
      simp [hcase, hsold]
  | rent u2 i2 n2 =>
    simp only [applyOp] at hstep
    obtain ⟨q, s, e, hq, _, _, _, _, _, _, _, hprod, _⟩ := rentProduct_ok hstep
    simp only [findProduct, hprod] at hp'
    simp only [findProduct] at hp
    rw [hp] at hp'
    have := Option.some.inj hp'
    subst this
    exact hsold
  | view v2 pid2 =>
    simp only [applyOp] at hstep
    cases hc : viewProduct v2 pid2 db with
    | error e =>
      rw [hc] at hstep
      have h2 : (Except.error e : Except Err DB) = Except.ok db' := hstep
      simp at h2
    | ok pr =>
      obtain ⟨d2, p2⟩ := pr
      rw [hc] at hstep
      have hdb2 := Except.ok.inj
        (show Except.ok (d2, p2).1 = Except.ok db' from hstep)
      subst hdb2
      obtain ⟨_, hcases⟩ := viewProduct_ok hc
      rcases hcases with hsame | ⟨q, hq, hprod⟩
      · rw [show findProduct d2 pid = findProduct db pid by
          simp [findProduct, hsame]] at hp'
        rw [hp] at hp'
        have := Option.some.inj hp'
        subst this
        exact hsold
      · have hqid : q.id = pid2 := findProduct_id hq
        have hid : ({ q with views := q.views + 1 } : Product).id = pid2 := hqid
        simp only [findProduct, hprod] at hp'
        rw [find?_replaceProduct _ _ _ hid pid] at hp'
        simp only [findProduct] at hp
        rw [hp] at hp'
        have hp2 : some (if p.id == pid2 then
            ({ q with views := q.views + 1 } : Product) else p) = some p' := hp'
        have hp3 := Option.some.inj hp2
        by_cases hcase : p.id = pid2
        · have hpidx : p.id = pid := @findProduct_id db pid p (by
            simpa [findProduct] using hp)
          have hxp : pid = pid2 := by omega
          subst hxp
          have hqp : q = p := by
            have hp4 : findProduct db pid = some p := by
              simpa [findProduct] using hp
            rw [hq] at hp4
            exact Option.some.inj hp4
          subst hqp
          rw [← hp3]
          simpa [hcase] using hsold
        · rw [← hp3]
          simp [hcase, hsold]

/-- Witness for C2 amended: a guest view of the sold bike keeps the flag. -/
theorem sold_flag_monotone_witness :
    Reachable exDb2 ∧ opKeepsSoldFlag (Op.view none 1) ∧
      applyOp (Op.view none 1) exDb2 = .ok exDbV ∧
      findProduct exDb2 1 = some exP2 ∧ exP2.isSold = true ∧
      findProduct exDbV 1 = some exPV ∧ exPV.isSold = true :=
  ⟨exDb2_reachable, trivial, rfl, rfl, rfl, rfl,
    sold_flag_monotone exDb2 exDbV (Op.view none 1) exDb2_reachable trivial rfl
      1 exP2 exPV rfl rfl rfl⟩

/-- C3: for a proposed range [sNew, eNew] with sNew ≤ eNew and an existing
rental [s, e] with s ≤ e, the three branch disjunction rentProduct uses
agrees exactly with the single symmetric closed interval intersection test
sNew ≤ e and eNew ≥ s. -/
theorem rent_overlap_equiv (s e sNew eNew : Int) (hOld : s ≤ e)
    (hNew : sNew ≤ eNew) :
    overlapBranches s e sNew eNew = specIntervalIntersect sNew eNew s e := by
  rw [Bool.eq_iff_iff]
  simp only [overlapBranches, specIntervalIntersect, Bool.or_eq_true,
    Bool.and_eq_true, decide_eq_true_eq]
  omega

/-- Witness for C3 on the ranges [1, 5] and [3, 10]. -/
theorem rent_overlap_equiv_witness :
    (1 : Int) ≤ 5 ∧ (3 : Int) ≤ 10 ∧
      overlapBranches 1 5 3 10 = specIntervalIntersect 3 10 1 5 :=
  ⟨by decide, by decide, rent_overlap_equiv 1 5 3 10 (by decide) (by decide)⟩

/-- C4: update merges the provided fields over the stored product, fails
with NotFound when the product is absent, Authorization when the editor is
not the owner, Validation when the merged field set has no truthy price
(I1, a present price being a non-null non-zero one as the code tests
truthiness) or a truthy rental price without rental type (I2); every
failure happens before the single write, so the store is unchanged, and on
success unspecified fields keep their stored values while other products
are untouched. -/
theorem update_product_semantics (db : DB) (uid pid : Nat)
    (input : UpdateProductInput) :
    (findProduct db pid = none →
      updateProduct uid pid input db = .error ⟨.NotFound, "Product"⟩) ∧
    (∀ p, findProduct db pid = some p → p.ownerId ≠ uid →
      updateProduct uid pid input db =
        .error ⟨.Authorization, "You can only update your own products"⟩) ∧
    (∀ p, findProduct db pid = some p → p.ownerId = uid →
      truthyNum (input.price.getD p.price) = false →
      truthyNum (input.rentPrice.getD p.rentPrice) = false →
      updateProduct uid pid input db = .error ⟨.Validation,
        "Product must have either a purchase price or rental price"⟩) ∧
    (∀ p, findProduct db pid = some p → p.ownerId = uid →
      truthyNum (input.rentPrice.getD p.rentPrice) = true →
      input.rentType.getD p.rentType = none →
      updateProduct uid pid input db = .error ⟨.Validation,
        "Rental type is required when rental price is set"⟩) ∧
    (∀ p, findProduct db pid = some p → p.ownerId = uid →
      (truthyNum (input.price.getD p.price) = true ∨
        truthyNum (input.rentPrice.getD p.rentPrice) = true) →
      (truthyNum (input.rentPrice.getD p.rentPrice) = true →
        (input.rentType.getD p.rentType).isSome = true) →
      ∃ db', updateProduct uid pid input db =
          .ok (db', mergeProduct p input) ∧
        db'.transactions = db.transactions ∧
        findProduct db' pid = some (mergeProduct p input) ∧
        (mergeProduct p input).title = input.title.getD p.title ∧
        (mergeProduct p input).description =
          input.description.getD p.description ∧
        (mergeProduct p input).categories = input.categories.getD p.categories ∧
        (mergeProduct p input).price = input.price.getD p.price ∧
        (mergeProduct p input).rentPrice = input.rentPrice.getD p.rentPrice ∧
        (mergeProduct p input).rentType = input.rentType.getD p.rentType ∧
        (mergeProduct p input).isSold = input.isSold.getD p.isSold ∧
        (mergeProduct p input).ownerId = p.ownerId ∧
        (mergeProduct p input).id = p.id ∧
        (mergeProduct p input).views = p.views ∧
        (mergeProduct p input).datePosted = p.datePosted ∧
        (∀ x q, x ≠ pid → findProduct db x = some q →
          findProduct db' x = some q)) := by
  refine ⟨?_, ?_, ?_, ?_, ?_⟩
  · intro hnone
    unfold updateProduct
    rw [hnone]
  · intro p hp hown
    unfold updateProduct
    rw [hp]
    dsimp only
    rw [if_pos hown]
  · intro p hp hown hfp hfrp
    unfold updateProduct
    rw [hp]
    dsimp only
    rw [if_neg (fun hc => hc hown), if_pos (by simp [hfp, hfrp])]
  · intro p hp hown hfrp hfrt
    unfold updateProduct
    rw [hp]
    dsimp only
    rw [if_neg (fun hc => hc hown), if_neg (by simp [hfrp]),
      if_pos (by simp [hfrp, hfrt])]
  · intro p hp hown hI1 hI2
    have hc1 : (!truthyNum (input.price.getD p.price) &&
        !truthyNum (input.rentPrice.getD p.rentPrice)) = false := by
      rcases hI1 with h | h <;> simp [h]
    have hc2 : (truthyNum (input.rentPrice.getD p.rentPrice) &&
        (input.rentType.getD p.rentType).isNone) = false := by
      cases hfr : truthyNum (input.rentPrice.getD p.rentPrice)
      · simp
      · have := hI2 hfr
        simp only [Bool.true_and]
        cases hrt : input.rentType.getD p.rentType
        · rw [hrt] at this
          simp at this
        · simp
    have hid : p.id = pid := findProduct_id hp
    have hmid : (mergeProduct p input).id = pid := by
      simpa [mergeProduct] using hid
    refine ⟨{ db with products :=
        replaceProduct db.products pid (mergeProduct p input) }, ?_, rfl, ?_,
      rfl, rfl, rfl, rfl, rfl, rfl, rfl, rfl, rfl, rfl, rfl, ?_⟩
    · unfold updateProduct
      rw [hp]
      dsimp only
      rw [if_neg (fun hc => hc hown), if_neg (by simp [hc1]),
        if_neg (by simp [hc2])]
    · simp only [findProduct]
      rw [find?_replaceProduct _ _ _ hmid pid]
      simp only [findProduct] at hp
      rw [hp]
      simp [hid]
    · intro x q hx hq
      simp only [findProduct]
      rw [find?_replaceProduct _ _ _ hmid x]
      simp only [findProduct] at hq
      rw [hq]
      have hqx : q.id = x := @findProduct_id db x q (by
        simpa [findProduct] using hq)
      simp [hqx, hx]

/-- Witness for C4: the four failure modes and one success at concrete
stores. -/
theorem update_product_semantics_witness :
    (findProduct initDB 1 = none ∧
      updateProduct 9 1 exRevertInput initDB =
        .error ⟨.NotFound, "Product"⟩) ∧
    (findProduct exDb1 1 = some exP1 ∧ exP1.ownerId ≠ 9 ∧
      updateProduct 9 1 exRevertInput exDb1 =
        .error ⟨.Authorization, "You can only update your own products"⟩) ∧
    (truthyNum (cexClearInput.price.getD exP1.price) = false ∧
      truthyNum (cexClearInput.rentPrice.getD exP1.rentPrice) = false ∧
      updateProduct 1 1 cexClearInput exDb1 = .error ⟨.Validation,
        "Product must have either a purchase price or rental price"⟩) ∧
    (truthyNum (cexI2Input.rentPrice.getD exP1.rentPrice) = true ∧
      cexI2Input.rentType.getD exP1.rentType = none ∧
      updateProduct 1 1 cexI2Input exDb1 = .error ⟨.Validation,
        "Rental type is required when rental price is set"⟩) ∧
    (∃ db', updateProduct 1 1 exRevertInput exDb2 =
        .ok (db', mergeProduct exP2 exRevertInput) ∧
      db'.transactions = exDb2.transactions ∧
      findProduct db' 1 = some (mergeProduct exP2 exRevertInput) ∧
      (mergeProduct exP2 exRevertInput).title =
        exRevertInput.title.getD exP2.title ∧
      (mergeProduct exP2 exRevertInput).description =
        exRevertInput.description.getD exP2.description ∧
      (mergeProduct exP2 exRevertInput).categories =
        exRevertInput.categories.getD exP2.categories ∧
      (mergeProduct exP2 exRevertInput).price =
        exRevertInput.price.getD exP2.price ∧
      (mergeProduct exP2 exRevertInput).rentPrice =
        exRevertInput.rentPrice.getD exP2.rentPrice ∧
      (mergeProduct exP2 exRevertInput).rentType =
        exRevertInput.rentType.getD exP2.rentType ∧
      (mergeProduct exP2 exRevertInput).isSold =
        exRevertInput.isSold.getD exP2.isSold ∧
      (mergeProduct exP2 exRevertInput).ownerId = exP2.ownerId ∧
      (mergeProduct exP2 exRevertInput).id = exP2.id ∧
      (mergeProduct exP2 exRevertInput).views = exP2.views ∧
      (mergeProduct exP2 exRevertInput).datePosted = exP2.datePosted ∧
      (∀ x q, x ≠ 1 → findProduct exDb2 x = some q →
        findProduct db' x = some q)) :=
  ⟨⟨rfl, (update_product_semantics initDB 9 1 exRevertInput).1 rfl⟩,
   ⟨rfl, by decide,
     (update_product_semantics exDb1 9 1 exRevertInput).2.1 exP1 rfl
       (by decide)⟩,
   ⟨rfl, rfl,
     (update_product_semantics exDb1 1 1 cexClearInput).2.2.1 exP1 rfl rfl
       rfl rfl⟩,
   ⟨rfl, rfl,
     (update_product_semantics exDb1 1 1 cexI2Input).2.2.2.1 exP1 rfl rfl
       rfl rfl⟩,
   (update_product_semantics exDb2 1 1 exRevertInput).2.2.2.2 exP2 rfl rfl
     (Or.inl rfl) (by decide)⟩

/-- C5: buying or renting a product one owns always fails with a Conflict
error (when the product is additionally sold, the sold Conflict fires
first); the failing operation performs no write, so the product and the
ledger are untouched. -/
theorem self_dealing_conflict (db : DB) (pid uid : Nat) (now : Int)
    (input : RentInput) (p : Product) (hp : findProduct db pid = some p)
    (hown : p.ownerId = uid) (hpid : input.productId = pid) :
    (∃ m, buyProduct uid pid now db = .error ⟨.Conflict, m⟩) ∧
    (∃ m, rentProduct uid input now db = .error ⟨.Conflict, m⟩) := by
  constructor
  · cases hs : p.isSold
    · refine ⟨"Cannot buy your own product", ?_⟩
      unfold buyProduct
      rw [hp]
      dsimp only
      rw [if_neg (by simp [hs]), if_pos (by simp [hown])]
    · exact ⟨"Product is already sold", buyProduct_sold_err hp hs⟩
  · cases hs : p.isSold
    · refine ⟨"Cannot rent your own product", ?_⟩
      unfold rentProduct
      rw [hpid, hp]
      dsimp only
      rw [if_neg (by simp [hs]), if_pos (by simp [hown])]
    · refine ⟨"Cannot rent a product that is already sold", ?_⟩
      unfold rentProduct
      rw [hpid, hp]
      dsimp only
      rw [if_pos hs]

/-- Witness for C5: owner 1 tries to buy and rent the unsold bike. -/
theorem self_dealing_conflict_witness :
    findProduct exDb1 1 = some exP1 ∧ exP1.ownerId = 1 ∧
      exSelfRentInput.productId = 1 ∧
      ((∃ m, buyProduct 1 1 30 exDb1 = .error ⟨.Conflict, m⟩) ∧
        (∃ m, rentProduct 1 exSelfRentInput 30 exDb1 =
          .error ⟨.Conflict, m⟩)) :=
  ⟨rfl, rfl, rfl,
    self_dealing_conflict exDb1 1 1 30 exSelfRentInput exP1 rfl rfl rfl⟩

/-- C6: once the sold, self purchase and price checks pass, buy fails with
Conflict exactly when some RENT transaction on the product has an end date
at or after now, and succeeds when no rental is active; the price check
fires before the rental check (a missing price yields Validation even with
an active rental) and the sold check fires before everything. -/
theorem buy_active_rental_gate (db : DB) (pid uid : Nat) (now : Int) :
    (∀ p, findProduct db pid = some p → p.isSold = false → p.ownerId ≠ uid →
      truthyNum p.price = true →
      (∃ t ∈ db.transactions, rentalBlocksSale now pid t = true) →
      buyProduct uid pid now db = .error ⟨.Conflict,
        "Cannot buy product while it is currently rented. Please try again after the rental period ends."⟩) ∧
    (∀ p, findProduct db pid = some p → p.isSold = false → p.ownerId ≠ uid →
      truthyNum p.price = true →
      (∀ t ∈ db.transactions, rentalBlocksSale now pid t = false) →
      ∃ db', buyProduct uid pid now db = .ok db') ∧
    (∀ p, findProduct db pid = some p → p.isSold = false → p.ownerId ≠ uid →
      truthyNum p.price = false →
      buyProduct uid pid now db = .error ⟨.Validation,
        "Product does not have a purchase price set"⟩) ∧
    (∀ p, findProduct db pid = some p → p.isSold = true →
      buyProduct uid pid now db =
        .error ⟨.Conflict, "Product is already sold"⟩) := by
  refine ⟨?_, ?_, ?_, ?_⟩
  · intro p hp hs hown hprice ⟨t, ht, hblock⟩
    unfold buyProduct
    rw [hp]
    dsimp only
    rw [if_neg (by simp [hs]), if_neg (by simp; exact fun hc => hown hc),
      if_neg (by simp [hprice]),
      if_pos (List.length_pos.mpr
        (List.ne_nil_of_mem (List.mem_filter.mpr ⟨ht, hblock⟩)))]
  · intro p hp hs hown hprice hquiet
    unfold buyProduct
    rw [hp]
    dsimp only
    rw [if_neg (by simp [hs]), if_neg (by simp; exact fun hc => hown hc),
      if_neg (by simp [hprice]),
      if_neg (by
        rw [List.filter_eq_nil_iff.mpr (by
          intro t ht
          simp [hquiet t ht])]
        simp)]
    exact ⟨_, rfl⟩
  · intro p hp hs hown hprice
    unfold buyProduct
    rw [hp]
    dsimp only
    rw [if_neg (by simp [hs]), if_neg (by simp; exact fun hc => hown hc),
      if_pos (by simp [hprice])]
  · intro p hp hs
    exact buyProduct_sold_err hp hs

/-- Witness for C6: the canoe with a rental over [100, 200]; at time 150
the rental blocks the sale, at time 300 the sale goes through; the
rental-only twin fails the price check at time 150; the sold zero-priced
product fails the sold check. -/
theorem buy_active_rental_gate_witness :
    (findProduct exRentDb 1 = some exRentableProduct ∧
      exRentableProduct.isSold = false ∧ exRentableProduct.ownerId ≠ 3 ∧
      truthyNum exRentableProduct.price = true ∧
      (∃ t ∈ exRentDb.transactions, rentalBlocksSale 150 1 t = true) ∧
      buyProduct 3 1 150 exRentDb = .error ⟨.Conflict,
        "Cannot buy product while it is currently rented. Please try again after the rental period ends."⟩) ∧
    ((∀ t ∈ exRentDb.transactions, rentalBlocksSale 300 1 t = false) ∧
      ∃ db', buyProduct 3 1 300 exRentDb = .ok db') ∧
    (buyProduct 3 1 150 exRentalOnlyDb = .error ⟨.Validation,
      "Product does not have a purchase price set"⟩) ∧
    (buyProduct 2 1 150 cexZeroDb =
      .error ⟨.Conflict, "Product is already sold"⟩) :=
  ⟨⟨rfl, rfl, by decide, rfl, ⟨exRentTxn, by decide, rfl⟩,
     (buy_active_rental_gate exRentDb 1 3 150).1 exRentableProduct rfl rfl
       (by decide) rfl ⟨exRentTxn, by decide, rfl⟩⟩,
   ⟨by decide,
     (buy_active_rental_gate exRentDb 1 3 300).2.1 exRentableProduct rfl rfl
       (by decide) rfl (by decide)⟩,
   (buy_active_rental_gate exRentalOnlyDb 1 3 150).2.2.1
     ({ exRentableProduct with price := none }) rfl rfl (by decide) rfl,
   (buy_active_rental_gate cexZeroDb 1 2 150).2.2.2
     ((findProduct cexZeroDb 1).getD dummyProduct) rfl rfl⟩

theorem productOwner_some {db : DB} {x u : Nat}
    (h : productOwner db x = some u) :
    ∃ p, findProduct db x = some p ∧ p.ownerId = u := by
  unfold productOwner at h
  cases hf : findProduct db x with
  | none => rw [hf] at h; simp at h
  | some p =>
    rw [hf] at h
    have h2 : some p.ownerId = some u := h
    exact ⟨p, rfl, Option.some.inj h2⟩

/-- C7: in every reachable state the four viewpoint queries are pairwise
disjoint, their union is exactly the set of ledger transactions in which u
is the acting user or the owner of the referenced product, and every query
result is ordered newest first. -/
theorem history_partition (db : DB) (hdb : Reachable db) (u : Nat) :
    (∀ t, ¬(t ∈ myTransactionHistory db u "BOUGHT" ∧
        t ∈ myTransactionHistory db u "SOLD")) ∧
    (∀ t, ¬(t ∈ myTransactionHistory db u "BORROWED" ∧
        t ∈ myTransactionHistory db u "LENT")) ∧
    (∀ t, ¬(t ∈ myTransactionHistory db u "BOUGHT" ∧
        t ∈ myTransactionHistory db u "BORROWED")) ∧
    (∀ t, ¬(t ∈ myTransactionHistory db u "BOUGHT" ∧
        t ∈ myTransactionHistory db u "LENT")) ∧
    (∀ t, ¬(t ∈ myTransactionHistory db u "SOLD" ∧
        t ∈ myTransactionHistory db u "BORROWED")) ∧
    (∀ t, ¬(t ∈ myTransactionHistory db u "SOLD" ∧
        t ∈ myTransactionHistory db u "LENT")) ∧
    (∀ t, (t ∈ myTransactionHistory db u "BOUGHT" ∨
        t ∈ myTransactionHistory db u "SOLD" ∨
        t ∈ myTransactionHistory db u "BORROWED" ∨
        t ∈ myTransactionHistory db u "LENT") ↔
      (t ∈ db.transactions ∧
        (t.userId = u ∨ productOwner db t.productId = some u))) ∧
    (∀ f, List.Sorted newerEq (myTransactionHistory db u f)) := by
  obtain ⟨hfk, hns⟩ := reachable_inv hdb
  refine ⟨?_, ?_, ?_, ?_, ?_, ?_, ?_, fun f => sorted_newestFirst _⟩
  · rintro t ⟨hb, hs⟩
    rw [mem_history] at hb hs
    obtain ⟨htm, hbm⟩ := hb
    obtain ⟨-, hsm⟩ := hs
    rw [historyMatches_bought] at hbm
    rw [historyMatches_sold] at hsm
    simp only [Bool.and_eq_true, beq_iff_eq] at hbm hsm
    obtain ⟨q, hq, hqo⟩ := productOwner_some hsm.1
    exact hns t htm q hq (by rw [hqo, hbm.1])
  · rintro t ⟨hb, hs⟩
    rw [mem_history] at hb hs
    obtain ⟨htm, hbm⟩ := hb
    obtain ⟨-, hsm⟩ := hs
    rw [historyMatches_borrowed] at hbm
    rw [historyMatches_lent] at hsm
    simp only [Bool.and_eq_true, beq_iff_eq] at hbm hsm
    obtain ⟨q, hq, hqo⟩ := productOwner_some hsm.1
    exact hns t htm q hq (by rw [hqo, hbm.1])
  · rintro t ⟨hb, hs⟩
    rw [mem_history] at hb hs
    obtain ⟨-, hbm⟩ := hb
    obtain ⟨-, hsm⟩ := hs
    rw [historyMatches_bought] at hbm
    rw [historyMatches_borrowed] at hsm
    simp only [Bool.and_eq_true, beq_iff_eq] at hbm hsm
    rw [hbm.2] at hsm
    exact absurd hsm.2 (by simp)
  · rintro t ⟨hb, hs⟩
    rw [mem_history] at hb hs
    obtain ⟨-, hbm⟩ := hb
    obtain ⟨-, hsm⟩ := hs
    rw [historyMatches_bought] at hbm
    rw [historyMatches_lent] at hsm
    simp only [Bool.and_eq_true, beq_iff_eq] at hbm hsm
    rw [hbm.2] at hsm
    exact absurd hsm.2 (by simp)
  · rintro t ⟨hb, hs⟩
    rw [mem_history] at hb hs
    obtain ⟨-, hbm⟩ := hb
    obtain ⟨-, hsm⟩ := hs
    rw [historyMatches_sold] at hbm
    rw [historyMatches_borrowed] at hsm
    simp only [Bool.and_eq_true, beq_iff_eq] at hbm hsm
    rw [hbm.2] at hsm
    exact absurd hsm.2 (by simp)
  · rintro t ⟨hb, hs⟩
    rw [mem_history] at hb hs
    obtain ⟨-, hbm⟩ := hb
    obtain ⟨-, hsm⟩ := hs
    rw [historyMatches_sold] at hbm
    rw [historyMatches_lent] at hsm
    simp only [Bool.and_eq_true, beq_iff_eq] at hbm hsm
    rw [hbm.2] at hsm
    exact absurd hsm.2 (by simp)
  · intro t
    constructor
    · rintro (h | h | h | h) <;> rw [mem_history] at h <;>
        obtain ⟨hm, hmm⟩ := h
      · rw [historyMatches_bought] at hmm
        simp only [Bool.and_eq_true, beq_iff_eq] at hmm
        exact ⟨hm, Or.inl hmm.1⟩
      · rw [historyMatches_sold] at hmm
        simp only [Bool.and_eq_true, beq_iff_eq] at hmm
        exact ⟨hm, Or.inr hmm.1⟩
      · rw [historyMatches_borrowed] at hmm
        simp only [Bool.and_eq_true, beq_iff_eq] at hmm
        exact ⟨hm, Or.inl hmm.1⟩
      · rw [historyMatches_lent] at hmm
        simp only [Bool.and_eq_true, beq_iff_eq] at hmm
        exact ⟨hm, Or.inr hmm.1⟩
    · rintro ⟨hm, hcase⟩
      cases htype : t.type with
      | BUY =>
        rcases hcase with hu | howner
        · refine Or.inl ?_
          rw [mem_history, historyMatches_bought]
          exact ⟨hm, by simp [hu, htype]⟩
        · refine Or.inr (Or.inl ?_)
          rw [mem_history, historyMatches_sold]
          exact ⟨hm, by simp [howner, htype]⟩
      | RENT =>
        rcases hcase with hu | howner
        · refine Or.inr (Or.inr (Or.inl ?_))
          rw [mem_history, historyMatches_borrowed]
          exact ⟨hm, by simp [hu, htype]⟩
        · refine Or.inr (Or.inr (Or.inr ?_))
          rw [mem_history, historyMatches_lent]
          exact ⟨hm, by simp [howner, htype]⟩

/-- Witness for C7 at the concrete reachable store exDb2 and user 2. -/
theorem history_partition_witness :
    Reachable exDb2 ∧
      ((∀ t, ¬(t ∈ myTransactionHistory exDb2 2 "BOUGHT" ∧
          t ∈ myTransactionHistory exDb2 2 "SOLD")) ∧
      (∀ t, ¬(t ∈ myTransactionHistory exDb2 2 "BORROWED" ∧
          t ∈ myTransactionHistory exDb2 2 "LENT")) ∧
      (∀ t, ¬(t ∈ myTransactionHistory exDb2 2 "BOUGHT" ∧
          t ∈ myTransactionHistory exDb2 2 "BORROWED")) ∧
      (∀ t, ¬(t ∈ myTransactionHistory exDb2 2 "BOUGHT" ∧
          t ∈ myTransactionHistory exDb2 2 "LENT")) ∧
      (∀ t, ¬(t ∈ myTransactionHistory exDb2 2 "SOLD" ∧
          t ∈ myTransactionHistory exDb2 2 "BORROWED")) ∧
      (∀ t, ¬(t ∈ myTransactionHistory exDb2 2 "SOLD" ∧
          t ∈ myTransactionHistory exDb2 2 "LENT")) ∧
      (∀ t, (t ∈ myTransactionHistory exDb2 2 "BOUGHT" ∨
          t ∈ myTransactionHistory exDb2 2 "SOLD" ∨
          t ∈ myTransactionHistory exDb2 2 "BORROWED" ∨
          t ∈ myTransactionHistory exDb2 2 "LENT") ↔
        (t ∈ exDb2.transactions ∧
          (t.userId = 2 ∨ productOwner exDb2 t.productId = some 2))) ∧
      (∀ f, List.Sorted newerEq (myTransactionHistory exDb2 2 f))) :=
  ⟨exDb2_reachable, history_partition exDb2 exDb2_reachable 2⟩

/-- Every successful operation only appends to the ledger; existing
transaction records are never modified or dropped. -/
theorem ledger_append_only {op : Op} {db db2 : DB}
    (h : applyOp op db = .ok db2) :
    ∃ rest, db2.transactions = db.transactions ++ rest := by
  cases op with
  | create u i n =>
    simp only [applyOp] at h
    cases hc : createProduct u i n db with
    | error e =>
      rw [hc] at h
      have h2 : (Except.error e : Except Err DB) = Except.ok db2 := h
      simp at h2
    | ok pr =>
      obtain ⟨d2, p2⟩ := pr
      rw [hc] at h
      have hdb := Except.ok.inj
        (show Except.ok (d2, p2).1 = Except.ok db2 from h)
      subst hdb
      obtain ⟨_, _, _, _, htx⟩ := createProduct_ok hc
      exact ⟨[], by simp [htx]⟩
  | update u pid i =>
    simp only [applyOp] at h
    cases hc : updateProduct u pid i db with
    | error e =>
      rw [hc] at h
      have h2 : (Except.error e : Except Err DB) = Except.ok db2 := h
      simp at h2
    | ok pr =>
      obtain ⟨d2, p2⟩ := pr
      rw [hc] at h
      have hdb := Except.ok.inj
        (show Except.ok (d2, p2).1 = Except.ok db2 from h)
      subst hdb
      obtain ⟨q, _, _, _, _, htx, _, _⟩ := updateProduct_ok hc
      exact ⟨[], by simp [htx]⟩
  | del u pid =>
    simp only [applyOp] at h
    obtain ⟨q, _, _, _, _, htx⟩ := deleteProduct_ok h
    exact ⟨[], by simp [htx]⟩
  | buy u pid n =>
    simp only [applyOp] at h
    obtain ⟨q, _, _, _, _, _, _, htx, _⟩ := buyProduct_ok h
    exact ⟨_, htx⟩
  | rent u i n =>
    simp only [applyOp] at h
    obtain ⟨q, s, e, _, _, _, _, _, _, _, _, _, htx⟩ := rentProduct_ok h
    exact ⟨_, htx⟩
  | view v pid =>
    simp only [applyOp] at h
    cases hc : viewProduct v pid db with
    | error e =>
      rw [hc] at h
      have h2 : (Except.error e : Except Err DB) = Except.ok db2 := h
      simp at h2
    | ok pr =>
      obtain ⟨d2, p2⟩ := pr
      rw [hc] at h
      have hdb := Except.ok.inj
        (show Except.ok (d2, p2).1 = Except.ok db2 from h)
      subst hdb
      obtain ⟨htx, _⟩ := viewProduct_ok hc
      exact ⟨[], by simp [htx]⟩

/-- C8: a successful buy of a product priced x appends a BUY transaction
whose frozen snapshot transactionPrice is x; a later update of the product
leaves the ledger untouched, and no operation of the core ever modifies an
existing transaction record (the ledger is append only). -/
theorem buy_snapshot_immutable (db db' : DB) (pid uid : Nat) (now : Int)
    (p : Product) (x : Int) (hp : findProduct db pid = some p)
    (hprice : p.price = some x)
    (hok : buyProduct uid pid now db = .ok db') :
    (∃ t, db'.transactions = db.transactions ++ [t] ∧
      t.type = TransactionType.BUY ∧ t.userId = uid ∧ t.productId = pid ∧
      t.transactionPrice = some x) ∧
    (∀ uid2 pid2 input db2 q,
      updateProduct uid2 pid2 input db' = .ok (db2, q) →
      db2.transactions = db'.transactions) ∧
    (∀ op db2, applyOp op db' = .ok db2 →
      ∃ rest, db2.transactions = db'.transactions ++ rest) := by
  refine ⟨?_, ?_, ?_⟩
  · obtain ⟨p2, hp2, _, _, _, _, _, htx, _⟩ := buyProduct_ok hok
    rw [hp] at hp2
    have hpe := Option.some.inj hp2
    subst hpe
    refine ⟨_, htx, rfl, rfl, rfl, ?_⟩
    simpa using hprice
  · intro uid2 pid2 input db2 q h
    obtain ⟨_, _, _, _, _, htx2, _, _⟩ := updateProduct_ok h
    exact htx2
  · intro op db2 h
    exact ledger_append_only h

/-- Witness for C8: user 2 buys the bike priced 50. -/
theorem buy_snapshot_immutable_witness :
    findProduct exDb1 1 = some exP1 ∧ exP1.price = some 50 ∧
      buyProduct 2 1 20 exDb1 = .ok exDb2 ∧
      ((∃ t, exDb2.transactions = exDb1.transactions ++ [t] ∧
        t.type = TransactionType.BUY ∧ t.userId = 2 ∧ t.productId = 1 ∧
        t.transactionPrice = some 50) ∧
      (∀ uid2 pid2 input db2 q,
        updateProduct uid2 pid2 input exDb2 = .ok (db2, q) →
        db2.transactions = exDb2.transactions) ∧
      (∀ op db2, applyOp op exDb2 = .ok db2 →
        ∃ rest, db2.transactions = exDb2.transactions ++ rest)) :=
  ⟨rfl, rfl, rfl,
    buy_snapshot_immutable exDb1 exDb2 1 2 20 exP1 50 rfl rfl rfl⟩

/-- C9: migration.sql declares Transaction_productId_fkey ON DELETE
RESTRICT, so the owner's delete of a product whose ledger is nonempty is
rejected by the store instead of cascading: at exDb2 (product 1 owned by
user 1, one BUY transaction referencing it) deleteProduct raises the
foreign key violation and nothing is deleted. -/
theorem delete_restricted_by_fk :
    deleteProduct 1 1 exDb2 =
      .error ⟨.Store,
        "Foreign key constraint violated: Transaction_productId_fkey"⟩ ∧
    (findProduct exDb2 1).isSome = true ∧ exDb2.transactions ≠ [] :=
  ⟨rfl, rfl, by decide⟩

/-- C10 counterexample: a sold product with purchase price exactly 0; buy
fails with the sold Conflict, not with the Validation error the claim
states, and an update by a non-owner with price 0 fails with Authorization,
not Validation. -/
theorem zero_price_cex :
    (findProduct cexZeroDb 1).map Product.price = some (some 0) ∧
    buyProduct 2 1 5 cexZeroDb =
      .error ⟨.Conflict, "Product is already sold"⟩ ∧
    errKind (buyProduct 2 1 5 cexZeroDb) ≠ some ErrKind.Validation ∧
    updateProduct 2 1 cexZeroInput cexZeroDb =
      .error ⟨.Authorization, "You can only update your own products"⟩ ∧
    errKind (updateProduct 2 1 cexZeroInput cexZeroDb) ≠
      some ErrKind.Validation :=
  ⟨rfl, rfl, by decide, rfl, by decide⟩

/-- C10 amended: a price of exactly 0 is treated as absent wherever the
code tests price truthiness: when the sold, self purchase checks pass, buy
on a product whose price is 0 fails with Validation "Product does not have
a purchase price set"; create with price 0 and rentPrice 0 or null fails
the pricing check with Validation; and an owner's update whose merged
price is 0 and merged rentPrice is 0 or null fails the same pricing
check. -/
theorem zero_price_treated_absent (db : DB) (pid uid : Nat) (now : Int) :
    (∀ p, findProduct db pid = some p → p.price = some 0 →
      p.isSold = false → p.ownerId ≠ uid →
      buyProduct uid pid now db = .error ⟨.Validation,
        "Product does not have a purchase price set"⟩) ∧
    (∀ input : CreateProductInput, input.price = some 0 →
      (input.rentPrice = some 0 ∨ input.rentPrice = none) →
      createProduct uid input now db = .error ⟨.Validation,
        "Product must have either a purchase price or rental price"⟩) ∧
    (∀ p input, findProduct db pid = some p → p.ownerId = uid →
      input.price.getD p.price = some 0 →
      (input.rentPrice.getD p.rentPrice = some 0 ∨
        input.rentPrice.getD p.rentPrice = none) →
      updateProduct uid pid input db = .error ⟨.Validation,
        "Product must have either a purchase price or rental price"⟩) := by
  refine ⟨?_, ?_, ?_⟩
  · intro p hp hzero hs hown
    unfold buyProduct
    rw [hp]
    dsimp only
    rw [if_neg (by simp [hs]), if_neg (by simp; exact fun hc => hown hc),
      if_pos (by simp [hzero, truthyNum])]
  · intro input hzero hrp
    unfold createProduct
    rw [if_pos (by rcases hrp with h | h <;> simp [hzero, h, truthyNum])]
  · intro p input hp hown hfp hfrp
    unfold updateProduct
    rw [hp]
    dsimp only
    rw [if_neg (fun hc => hc hown),
      if_pos (by rcases hfrp with h | h <;> simp [hfp, h, truthyNum])]

/-- Witness for C10 amended: the unsold zero priced product, a zero priced
create input, and the owner's zeroing update. -/
theorem zero_price_treated_absent_witness :
    (findProduct exZeroUnsoldDb 1 =
        some ((findProduct exZeroUnsoldDb 1).getD dummyProduct) ∧
      ((findProduct exZeroUnsoldDb 1).getD dummyProduct).price = some 0 ∧
      ((findProduct exZeroUnsoldDb 1).getD dummyProduct).isSold = false ∧
      ((findProduct exZeroUnsoldDb 1).getD dummyProduct).ownerId ≠ 2 ∧
      buyProduct 2 1 5 exZeroUnsoldDb = .error ⟨.Validation,
        "Product does not have a purchase price set"⟩) ∧
    (cexZeroCreateInput.price = some 0 ∧ cexZeroCreateInput.rentPrice = none ∧
      createProduct 2 cexZeroCreateInput 5 exZeroUnsoldDb =
        .error ⟨.Validation,
          "Product must have either a purchase price or rental price"⟩) ∧
    (cexZeroInput.price.getD
        (((findProduct exZeroUnsoldDb 1).getD dummyProduct).price) = some 0 ∧
      cexZeroInput.rentPrice.getD
        (((findProduct exZeroUnsoldDb 1).getD dummyProduct).rentPrice) =
          none ∧
      updateProduct 1 1 cexZeroInput exZeroUnsoldDb = .error ⟨.Validation,
        "Product must have either a purchase price or rental price"⟩) :=
  ⟨⟨rfl, rfl, rfl, by decide,
     (zero_price_treated_absent exZeroUnsoldDb 1 2 5).1
       ((findProduct exZeroUnsoldDb 1).getD dummyProduct) rfl rfl rfl
       (by decide)⟩,
   ⟨rfl, rfl,
     (zero_price_treated_absent exZeroUnsoldDb 1 2 5).2.1 cexZeroCreateInput
       rfl (Or.inr rfl)⟩,
   ⟨rfl, rfl,
     (zero_price_treated_absent exZeroUnsoldDb 1 1 5).2.2
       ((findProduct exZeroUnsoldDb 1).getD dummyProduct) cexZeroInput rfl
       rfl rfl (Or.inr rfl)⟩⟩

end Teebay
